import Mathlib

/-!
Verification of the expense-tracker application (`main.py`): a shallow
embedding of its Expense Ledger Store (SQLite-backed CRUD helpers) and of
its Identity Session Manager (OAuth callback and cookie-based session
restore), together with proofs of the stated properties.

The SQLite table `expenses` is modelled as a list of rows plus the next
auto-increment id. SQL `TEXT` comparison (`date >= ?`, `ORDER BY date DESC`)
is byte-wise lexicographic, modelled by the `String` linear order; SQL
`LIKE` is pattern matching with the wildcards `%` and `_`, folding case for
ASCII. The server clock (`datetime.utcnow()`) enters `add_expense` as an
explicit `created_at` argument.
-/

/-- One row of the `expenses` table (`CREATE TABLE` in `init_db`). -/
structure ExpenseRecord where
  id : Nat
  user_email : String
  category : String
  amount : Rat
  payment_method : String
  date : String
  notes : String
  created_at : String
deriving DecidableEq, Repr

/-- The `expenses` table: its rows and the next `AUTOINCREMENT` id. -/
structure ExpenseDB where
  rows : List ExpenseRecord
  next_id : Nat
deriving DecidableEq, Repr

/-- Default record used with `List.getD` in positional statements. -/
def dummyRecord : ExpenseRecord := ⟨0, "", "", 0, "", "", "", ""⟩

/-- Python `add_expense(user_email, category, amount, payment_method, date, notes)`:
rejects `amount <= 0`, otherwise INSERTs a fresh row and returns `True`.
`created_at` is the clock reading taken inside the function. -/
def add_expense (db : ExpenseDB) (user_email category : String) (amount : Rat)
    (payment_method date notes created_at : String) : Bool × ExpenseDB :=
  if amount ≤ 0 then (false, db)
  else
    (true,
     ⟨db.rows ++ [⟨db.next_id, user_email, category, amount, payment_method,
        date, notes, created_at⟩],
      db.next_id + 1⟩)

/-- Effect of the SQL `UPDATE ... WHERE id=? AND user_email=?` on one row. -/
def applyUpdate (expense_id : Nat) (user_email category : String) (amount : Rat)
    (payment_method date notes : String) (r : ExpenseRecord) : ExpenseRecord :=
  if r.id = expense_id ∧ r.user_email = user_email then
    ⟨r.id, r.user_email, category, amount, payment_method, date, notes,
     r.created_at⟩
  else r

/-- Python `update_expense(expense_id, user_email, ...)`: rejects
`amount <= 0`, otherwise UPDATEs every row matching `(id, user_email)` and
returns `rowcount > 0`, i.e. whether some row matched. -/
def update_expense (db : ExpenseDB) (expense_id : Nat) (user_email category : String)
    (amount : Rat) (payment_method date notes : String) : Bool × ExpenseDB :=
  if amount ≤ 0 then (false, db)
  else
    (db.rows.any (fun r => r.id == expense_id && r.user_email == user_email),
     ⟨db.rows.map
        (applyUpdate expense_id user_email category amount payment_method date notes),
      db.next_id⟩)

/-- Python `delete_expense(expense_id, user_email)`: the SQL
`DELETE FROM expenses WHERE id=? AND user_email=?`; returns nothing. -/
def delete_expense (db : ExpenseDB) (expense_id : Nat) (user_email : String) :
    ExpenseDB :=
  ⟨db.rows.filter (fun r => !(r.id == expense_id && r.user_email == user_email)),
   db.next_id⟩

/-- Every suffix of a character list, longest first (the empty suffix
included), used for the zero-or-more-characters wildcard. -/
def tails : List Char → List (List Char)
  | [] => [[]]
  | c :: cs => (c :: cs) :: tails cs

/-- SQLite `LIKE` pattern matching: `%` matches any sequence of zero or
more characters, `_` matches exactly one character, and every other
pattern character matches one input character ASCII-case-insensitively
(SQLite LIKE folds case for ASCII only). -/
def likeMatch : List Char → List Char → Bool
  | [] => fun s => s.isEmpty
  | '%' :: ps => fun s => (tails s).any (likeMatch ps)
  | '_' :: ps => fun s =>
      match s with
      | [] => false
      | _ :: cs => likeMatch ps cs
  | a :: ps => fun s =>
      match s with
      | [] => false
      | c :: cs => (a.toLower == c.toLower) && likeMatch ps cs

/-- The search conjunct of `get_expenses`: `field LIKE ?` whose parameter
is the search text wrapped between two `%`, built by f-string
interpolation with no ESCAPE clause, so any `%` or `_` inside the search
text keeps its wildcard meaning. -/
def likeFilter (field search : String) : Bool :=
  likeMatch ('%' :: (search.data ++ ['%'])) field.data

/-- Bytewise check that `pat` starts `hay`, on lists of characters. -/
def startsList : List Char → List Char → Bool
  | [], _ => true
  | _ :: _, [] => false
  | a :: as, b :: bs => a == b && startsList as bs

/-- Check that `pat` occurs contiguously inside `hay`. -/
def occursIn (pat : List Char) : List Char → Bool
  | [] => pat.isEmpty
  | c :: cs => startsList pat (c :: cs) || occursIn pat cs

/-- The claim's wording of the search filter, stated for comparison with
the code's `likeFilter`: the search text occurs case-insensitively as a
literal substring of the field. The two agree on wildcard-free search
texts and differ when the text contains `%` or `_`. -/
def substrCI (field pat : String) : Bool :=
  occursIn (pat.data.map Char.toLower) (field.data.map Char.toLower)

/-- Python truthiness of the optional string arguments of `get_expenses`
(`if search:` skips the filter for `None` and for the empty string). -/
def pyTruthy : Option String → Bool
  | none => false
  | some s => s != ""

/-- The WHERE clause assembled by `get_expenses`: owner equality plus the
optional search and inclusive date-bound conjuncts. -/
def matchesQuery (user_email : String) (search start_date end_date : Option String)
    (r : ExpenseRecord) : Bool :=
  (r.user_email == user_email)
  && (if pyTruthy search then
        likeFilter r.category (search.getD "")
          || likeFilter r.payment_method (search.getD "")
          || likeFilter r.notes (search.getD "")
      else true)
  && (if pyTruthy start_date then decide (start_date.getD "" ≤ r.date) else true)
  && (if pyTruthy end_date then decide (r.date ≤ end_date.getD "") else true)

/-- Insert a row into a list kept in descending date order. -/
def insertDateDesc (r : ExpenseRecord) : List ExpenseRecord → List ExpenseRecord
  | [] => [r]
  | x :: xs => if x.date ≤ r.date then r :: x :: xs else x :: insertDateDesc r xs

/-- Sort rows by date descending (`ORDER BY date DESC`); the relative
order of equal dates is unspecified by SQL, any stable choice models it. -/
def sortDateDesc : List ExpenseRecord → List ExpenseRecord
  | [] => []
  | x :: xs => insertDateDesc x (sortDateDesc xs)

/-- Python `get_expenses(user_email, search, start_date, end_date)`: the
owner-scoped SELECT with optional search/date-bound conjuncts, ordered by
date descending. -/
def get_expenses (db : ExpenseDB) (user_email : String)
    (search start_date end_date : Option String) : List ExpenseRecord :=
  sortDateDesc (db.rows.filter (matchesQuery user_email search start_date end_date))

theorem insertDateDesc_perm (r : ExpenseRecord) (l : List ExpenseRecord) :
    List.Perm (insertDateDesc r l) (r :: l) := by
  induction l with
  | nil => exact List.Perm.refl _
  | cons x xs ih =>
    simp only [insertDateDesc]
    split
    · exact List.Perm.refl _
    · exact List.Perm.trans (List.Perm.cons x ih) (List.Perm.swap r x xs)

theorem sortDateDesc_perm (l : List ExpenseRecord) :
    List.Perm (sortDateDesc l) l := by
  induction l with
  | nil => exact List.Perm.refl _
  | cons x xs ih =>
    exact List.Perm.trans (insertDateDesc_perm x (sortDateDesc xs))
      (List.Perm.cons x ih)

theorem mem_sortDateDesc (r : ExpenseRecord) (l : List ExpenseRecord) :
    r ∈ sortDateDesc l ↔ r ∈ l :=
  (sortDateDesc_perm l).mem_iff

/-- The non-increasing-date relation used to state sortedness. -/
def dateGE (a b : ExpenseRecord) : Prop := b.date ≤ a.date

theorem insertDateDesc_pairwise (r : ExpenseRecord) (l : List ExpenseRecord)
    (h : List.Pairwise dateGE l) :
    List.Pairwise dateGE (insertDateDesc r l) := by
  induction l with
  | nil => simp [insertDateDesc, List.Pairwise]
  | cons x xs ih =>
    rcases List.pairwise_cons.mp h with ⟨hx, hxs⟩
    simp only [insertDateDesc]
    split
    · rename_i hle
      refine List.pairwise_cons.mpr ⟨?_, h⟩
      intro b hb
      rcases List.mem_cons.mp hb with hbx | hbxs
      · subst hbx; exact hle
      · exact le_trans (hx b hbxs) hle
    · rename_i hnle
      refine List.pairwise_cons.mpr ⟨?_, ih hxs⟩
      intro b hb
      rcases List.mem_cons.mp ((insertDateDesc_perm r xs).mem_iff.mp hb) with hbr | hbxs
      · subst hbr; exact le_of_not_le hnle
      · exact hx b hbxs

theorem sortDateDesc_pairwise (l : List ExpenseRecord) :
    List.Pairwise dateGE (sortDateDesc l) := by
  induction l with
  | nil => simp [sortDateDesc, List.Pairwise]
  | cons x xs ih => exact insertDateDesc_pairwise x (sortDateDesc xs) ih

/-!
Identity Session Manager. The network exchange (`flow.fetch_token`) is an
oracle parameter mapping an authorization code to a token or an error; a
token is identified with its decoded form.
-/

/-- Decoded identity claims (the `idinfo` payload dict). -/
structure IdInfo where
  email : String
  name : String
  picture : String
deriving DecidableEq, Repr

/-- An identity token as seen by the verifier: signature status, expiry
status (clock-skew tolerance already folded in), audience, and payload. -/
structure Token where
  sigValid : Bool
  expired : Bool
  aud : String
  payload : IdInfo
deriving DecidableEq, Repr

/-- Modelled from the spec: `google.oauth2.id_token.verify_oauth2_token`,
a third-party verifier not part of this repository. Per the spec it accepts
a token iff its signature verifies against the provider keys, it is
unexpired within the ~10 s clock-skew tolerance, and its audience equals
the expected client id passed by the caller; otherwise it raises. -/
def verify_oauth2_token (tok : Token) (audience : String) : Except Unit IdInfo :=
  if tok.sigValid && !tok.expired && tok.aud == audience then Except.ok tok.payload
  else Except.error ()

/-- Per-session application state: `st.session_state["credentials"]`,
`st.session_state["id_token"]`, the `g_id_token` cookie (`none` models both
an absent cookie and the cleared empty string, which `if token:` treats
alike), and `st.query_params`. -/
structure AppState where
  credentials : Option IdInfo
  id_token : Option Token
  cookie_g_id_token : Option Token
  query_params : List (String × String)
deriving DecidableEq, Repr

/-- The lookup `params["code"]` on the query-parameter dictionary. -/
def lookupParam (params : List (String × String)) (k : String) : Option String :=
  (params.find? (fun p => p.1 == k)).map Prod.snd

/-- Python `callback()`: if the request carries a `code` parameter, exchange
it (`flow.fetch_token`); on success store the raw token in session state,
verify it against `CLIENT_ID`, and if verification succeeds store the
credentials, save the token cookie, clear the query parameters and return
`True`. Any exception in the try body returns `False`, keeping whatever
state was already written. -/
def callback (clientId : String) (fetchToken : String → Except Unit Token)
    (s : AppState) : Bool × AppState :=
  match lookupParam s.query_params "code" with
  | none => (false, s)
  | some code =>
    match fetchToken code with
    | Except.error _ => (false, s)
    | Except.ok tok =>
      match verify_oauth2_token tok clientId with
      | Except.error _ =>
        (false, ⟨s.credentials, some tok, s.cookie_g_id_token, s.query_params⟩)
      | Except.ok idinfo =>
        (true, ⟨some idinfo, some tok, some tok, []⟩)

/-- The top-level session-restore block of `main.py`: when no credentials
are cached, first try to re-verify a cookie-held token against `CLIENT_ID`
(clearing the cookie if verification fails), then fall back to the OAuth
callback; if that also fails the login affordance is shown and rendering
stops, leaving the state anonymous. -/
def session_restore (clientId : String) (fetchToken : String → Except Unit Token)
    (s : AppState) : AppState :=
  if s.credentials.isSome then s
  else
    let s1 : AppState :=
      match s.cookie_g_id_token with
      | some tok =>
        match verify_oauth2_token tok clientId with
        | Except.ok idinfo => ⟨some idinfo, some tok, s.cookie_g_id_token, s.query_params⟩
        | Except.error _ => ⟨s.credentials, s.id_token, none, s.query_params⟩
      | none => s
    if s1.credentials.isSome then s1
    else (callback clientId fetchToken s1).2

theorem map_self_of_fix (l : List ExpenseRecord) (f : ExpenseRecord → ExpenseRecord)
    (h : ∀ r ∈ l, f r = r) : l.map f = l := by
  induction l with
  | nil => rfl
  | cons x xs ih =>
    simp only [List.map_cons, h x (List.mem_cons_self x xs),
      ih (fun r hr => h r (List.mem_cons_of_mem x hr))]

/-- Sample rows used to instantiate universally quantified theorems. -/
def recA : ExpenseRecord :=
  ⟨1, "a@x.com", "Food", mkRat 25 2, "Card", "2024-01-05", "lunch", "2024-01-05 10:00:00"⟩

/-- A second sample row belonging to a different owner. -/
def recB : ExpenseRecord :=
  ⟨2, "b@x.com", "Travel", 5, "Cash", "2024-02-01", "bus", "2024-02-01 10:00:00"⟩

/-- A sample table containing rows of two distinct owners. -/
def sampleDB : ExpenseDB := ⟨[recA, recB], 3⟩

/-- C1: owner isolation of retrieval. For distinct owners `o1 ≠ o2` and any
search text and date bounds, every record returned by
`get_expenses db o1 ...` carries `user_email = o1`, hence never one created
under `o2`. -/
theorem list_owner_isolation (db : ExpenseDB) (o1 o2 : String)
    (search sd ed : Option String) (hne : o1 ≠ o2) (r : ExpenseRecord)
    (hr : r ∈ get_expenses db o1 search sd ed) :
    r.user_email = o1 ∧ r.user_email ≠ o2 := by
  have hmem := (mem_sortDateDesc r _).mp hr
  have hq := (List.mem_filter.mp hmem).2
  simp only [matchesQuery, Bool.and_eq_true, beq_iff_eq] at hq
  refine ⟨hq.1.1.1, ?_⟩
  rw [hq.1.1.1]
  exact hne

theorem list_owner_isolation_witness :
    recA.user_email = "a@x.com" ∧ recA.user_email ≠ "b@x.com" :=
  list_owner_isolation sampleDB "a@x.com" "b@x.com" none none none
    (by decide) recA (by decide)

/-- C2: non-positive amount rejection. For `a ≤ 0` both `add_expense` and
`update_expense` return `false` and leave the table exactly unchanged. -/
theorem nonpositive_amount_rejected (db : ExpenseDB) (eid : Nat)
    (owner category : String) (a : Rat) (method date notes created_at : String)
    (h : a ≤ 0) :
    add_expense db owner category a method date notes created_at = (false, db) ∧
    update_expense db eid owner category a method date notes = (false, db) := by
  constructor
  · simp [add_expense, h]
  · simp [update_expense, h]

theorem nonpositive_amount_rejected_witness :
    add_expense ⟨[], 1⟩ "a@x.com" "Food" 0 "Card" "2024-01-05" "l" "t" = (false, ⟨[], 1⟩) ∧
    update_expense ⟨[], 1⟩ 1 "a@x.com" "Food" 0 "Card" "2024-01-05" "l" = (false, ⟨[], 1⟩) :=
  nonpositive_amount_rejected ⟨[], 1⟩ 1 "a@x.com" "Food" 0 "Card" "2024-01-05" "l" "t"
    (by decide)

/-- C3: no-match mutations are no-ops. When no stored row matches
`(id, owner)` — including an id owned by someone else — `update_expense`
with a positive amount returns `false` with the table unchanged, and
`delete_expense` returns the table unchanged (it reports nothing). -/
theorem no_match_mutations_noop (db : ExpenseDB) (eid : Nat)
    (owner category : String) (a : Rat) (method date notes : String)
    (hpos : 0 < a)
    (hnone : ∀ r ∈ db.rows, ¬(r.id = eid ∧ r.user_email = owner)) :
    update_expense db eid owner category a method date notes = (false, db) ∧
    delete_expense db eid owner = db := by
  obtain ⟨rows, nid⟩ := db
  simp only [ExpenseDB.mk.injEq] at hnone ⊢
  have hrows : ∀ r ∈ rows, ¬(r.id = eid ∧ r.user_email = owner) := hnone
  constructor
  · rw [update_expense, if_neg (not_le.mpr hpos)]
    have hany : rows.any (fun r => r.id == eid && r.user_email == owner) = false := by
      rw [List.any_eq_false]
      intro r hr
      simp only [Bool.and_eq_true, beq_iff_eq]
      exact hrows r hr
    have hmap : rows.map
        (applyUpdate eid owner category a method date notes) = rows := by
      refine map_self_of_fix rows _ ?_
      intro r hr
      rw [applyUpdate, if_neg (hrows r hr)]
    rw [hany, hmap]
  · rw [delete_expense]
    simp only [ExpenseDB.mk.injEq, and_true]
    rw [List.filter_eq_self]
    intro r hr
    simp only [Bool.not_eq_true', Bool.and_eq_false_iff]
    rcases Decidable.em (r.id = eid) with hid | hid
    · right
      exact beq_eq_false_iff_ne.mpr (fun he => hrows r hr ⟨hid, he⟩)
    · left
      exact beq_eq_false_iff_ne.mpr hid

theorem no_match_mutations_noop_witness :
    update_expense sampleDB 9 "a@x.com" "Food" 1 "Card" "2024-01-05" "l" = (false, sampleDB) ∧
    delete_expense sampleDB 9 "a@x.com" = sampleDB :=
  no_match_mutations_noop sampleDB 9 "a@x.com" "Food" 1 "Card" "2024-01-05" "l"
    (by decide) (by decide)

/-- C4: create/list round-trip. After a successful `add_expense` with a
positive amount, the unfiltered `get_expenses` for that owner contains a
record whose category, amount, payment method, date and notes equal the
inputs; the only store-chosen fields are its id (`next_id`) and the clock
reading `created_at`. -/
theorem create_list_round_trip (db : ExpenseDB) (owner category : String)
    (a : Rat) (method date notes created_at : String) (h : 0 < a) :
    (add_expense db owner category a method date notes created_at).1 = true ∧
    (⟨db.next_id, owner, category, a, method, date, notes, created_at⟩ : ExpenseRecord) ∈
      get_expenses (add_expense db owner category a method date notes created_at).2
        owner none none none := by
  rw [add_expense, if_neg (not_le.mpr h)]
  refine ⟨rfl, ?_⟩
  rw [get_expenses]
  refine (mem_sortDateDesc _ _).mpr (List.mem_filter.mpr ⟨?_, ?_⟩)
  · exact List.mem_append_right _ (List.mem_singleton.mpr rfl)
  · simp [matchesQuery, pyTruthy]

theorem create_list_round_trip_witness :
    (add_expense ⟨[], 1⟩ "a@x.com" "Food" (mkRat 25 2) "Card" "2024-01-05" "lunch" "ts").1 = true ∧
    (⟨1, "a@x.com", "Food", mkRat 25 2, "Card", "2024-01-05", "lunch", "ts"⟩ : ExpenseRecord) ∈
      get_expenses (add_expense ⟨[], 1⟩ "a@x.com" "Food" (mkRat 25 2) "Card" "2024-01-05" "lunch" "ts").2
        "a@x.com" none none none :=
  create_list_round_trip ⟨[], 1⟩ "a@x.com" "Food" (mkRat 25 2) "Card" "2024-01-05" "lunch" "ts"
    (by decide)

/-- C5: descending date order. For every owner, search text and date
bounds, the sequence returned by `get_expenses` has non-increasing dates:
each record's date is `≤` every earlier record's date. -/
theorem get_expenses_sorted_desc (db : ExpenseDB) (owner : String)
    (search sd ed : Option String) :
    List.Pairwise (fun a b : ExpenseRecord => b.date ≤ a.date)
      (get_expenses db owner search sd ed) :=
  sortDateDesc_pairwise _

/-- C6 counterexample: the search filter is not literal substring
occurrence. Under the search text "_" the program returns `recA`
(the pattern holding `_` between two `%` LIKE-matches any row with a
non-empty field), yet "_" does not occur case-insensitively as a
substring of its category, payment method or notes. -/
theorem get_expenses_substring_claim_cex :
    recA ∈ get_expenses sampleDB "a@x.com" (some "_") none none ∧
    substrCI recA.category "_" = false ∧
    substrCI recA.payment_method "_" = false ∧
    substrCI recA.notes "_" = false := by
  decide

/-- C6 (amended): filter semantics of list. With a non-empty search text
supplied and any combination of non-empty date bounds, `get_expenses`
returns exactly the owner's records whose category, payment method or
notes LIKE-matches the search text wrapped between two `%` — ASCII case
folded, `%` matching any character sequence and `_` any single character,
since the text is interpolated with no ESCAPE clause — and whose date
respects each supplied bound inclusively (so a record dated strictly
before a supplied start bound is excluded). -/
theorem get_expenses_filter_semantics (db : ExpenseDB) (owner s : String)
    (sd ed : Option String) (r : ExpenseRecord) (hs : s ≠ "")
    (hsd : ∀ lo, sd = some lo → lo ≠ "") (hed : ∀ hi, ed = some hi → hi ≠ "") :
    r ∈ get_expenses db owner (some s) sd ed ↔
      r ∈ db.rows ∧ r.user_email = owner ∧
      (likeFilter r.category s = true ∨ likeFilter r.payment_method s = true ∨
        likeFilter r.notes s = true) ∧
      (∀ lo, sd = some lo → lo ≤ r.date) ∧
      (∀ hi, ed = some hi → r.date ≤ hi) := by
  rw [get_expenses, mem_sortDateDesc, List.mem_filter]
  have h1 : pyTruthy (some s) = true := by simp [pyTruthy, hs]
  cases sd with
  | none =>
    cases ed with
    | none =>
      simp [matchesQuery, h1, pyTruthy, hs, Bool.and_eq_true, Bool.or_eq_true,
        beq_iff_eq, and_assoc, or_assoc]
    | some hi =>
      have h3 : pyTruthy (some hi) = true := by simp [pyTruthy, hed hi rfl]
      simp [matchesQuery, h1, h3, pyTruthy, hs, hed hi rfl, Bool.and_eq_true,
        Bool.or_eq_true, beq_iff_eq, decide_eq_true_eq, and_assoc, or_assoc]
  | some lo =>
    have h2 : pyTruthy (some lo) = true := by simp [pyTruthy, hsd lo rfl]
    cases ed with
    | none =>
      simp [matchesQuery, h1, h2, pyTruthy, hs, hsd lo rfl, Bool.and_eq_true,
        Bool.or_eq_true, beq_iff_eq, decide_eq_true_eq, and_assoc, or_assoc]
    | some hi =>
      have h3 : pyTruthy (some hi) = true := by simp [pyTruthy, hed hi rfl]
      simp [matchesQuery, h1, h2, h3, pyTruthy, hs, hsd lo rfl, hed hi rfl,
        Bool.and_eq_true, Bool.or_eq_true, beq_iff_eq, decide_eq_true_eq,
        and_assoc, or_assoc]

theorem get_expenses_filter_semantics_witness :
    ("F" ≠ "") ∧
    (recA ∈ get_expenses sampleDB "a@x.com" (some "F") (some "2024-01-01")
        (some "2024-12-31") ↔
      recA ∈ sampleDB.rows ∧ recA.user_email = "a@x.com" ∧
      (likeFilter recA.category "F" = true ∨ likeFilter recA.payment_method "F" = true ∨
        likeFilter recA.notes "F" = true) ∧
      (∀ lo, (some "2024-01-01" : Option String) = some lo → lo ≤ recA.date) ∧
      (∀ hi, (some "2024-12-31" : Option String) = some hi → recA.date ≤ hi)) :=
  ⟨by decide,
   get_expenses_filter_semantics sampleDB "a@x.com" "F" (some "2024-01-01")
     (some "2024-12-31") recA (by decide)
     (fun lo hl => by injection hl with hl; rw [← hl]; decide)
     (fun hi hh => by injection hh with hh; rw [← hh]; decide)⟩

theorem getD_map_of_lt (f : ExpenseRecord → ExpenseRecord) (l : List ExpenseRecord)
    (i : Nat) (hi : i < l.length) (d : ExpenseRecord) :
    (l.map f).getD i d = f (l.getD i d) := by
  induction l generalizing i with
  | nil => simp at hi
  | cons x xs ih =>
    cases i with
    | zero => rfl
    | succ n =>
      simp only [List.map_cons, List.getD_cons_succ]
      exact ih n (by simpa using hi)

/-- C7: update frame condition. A positive-amount `update_expense` keeps
the table length; the row matching `(id, owner)` keeps its `id`,
`user_email` and `created_at` and takes the new category, amount, payment
method, date and notes; every non-matching row is exactly unchanged. -/
theorem update_frame_condition (db : ExpenseDB) (eid : Nat)
    (owner category : String) (a : Rat) (method date notes : String)
    (hpos : 0 < a) :
    (update_expense db eid owner category a method date notes).2.rows.length
      = db.rows.length ∧
    ∀ i, i < db.rows.length →
      (((db.rows.getD i dummyRecord).id = eid ∧
          (db.rows.getD i dummyRecord).user_email = owner) →
        (update_expense db eid owner category a method date notes).2.rows.getD i
            dummyRecord =
          ⟨(db.rows.getD i dummyRecord).id, (db.rows.getD i dummyRecord).user_email,
           category, a, method, date, notes,
           (db.rows.getD i dummyRecord).created_at⟩) ∧
      (¬((db.rows.getD i dummyRecord).id = eid ∧
          (db.rows.getD i dummyRecord).user_email = owner) →
        (update_expense db eid owner category a method date notes).2.rows.getD i
            dummyRecord = db.rows.getD i dummyRecord) := by
  rw [update_expense, if_neg (not_le.mpr hpos)]
  dsimp only
  refine ⟨by simp, ?_⟩
  intro i hi
  rw [getD_map_of_lt _ _ i hi]
  constructor
  · intro hmatch
    rw [applyUpdate, if_pos hmatch]
  · intro hmatch
    rw [applyUpdate, if_neg hmatch]

theorem update_frame_condition_witness :
    (((sampleDB.rows.getD 0 dummyRecord).id = 1 ∧
        (sampleDB.rows.getD 0 dummyRecord).user_email = "a@x.com") →
      (update_expense sampleDB 1 "a@x.com" "Bills" 7 "UPI" "2024-03-01" "x").2.rows.getD 0
          dummyRecord =
        ⟨(sampleDB.rows.getD 0 dummyRecord).id,
         (sampleDB.rows.getD 0 dummyRecord).user_email, "Bills", 7, "UPI",
         "2024-03-01", "x", (sampleDB.rows.getD 0 dummyRecord).created_at⟩) ∧
    (¬((sampleDB.rows.getD 0 dummyRecord).id = 1 ∧
        (sampleDB.rows.getD 0 dummyRecord).user_email = "a@x.com") →
      (update_expense sampleDB 1 "a@x.com" "Bills" 7 "UPI" "2024-03-01" "x").2.rows.getD 0
          dummyRecord = sampleDB.rows.getD 0 dummyRecord) :=
  (update_frame_condition sampleDB 1 "a@x.com" "Bills" 7 "UPI" "2024-03-01" "x"
    (by decide)).2 0 (by decide)

/-- C8 (amended): for a positive amount, `add_expense` reports success with
the boolean flag `true` — not with the new record id — and appends the new
row, which receives the store-assigned id `next_id`. -/
theorem add_expense_success_flag (db : ExpenseDB) (owner category : String)
    (a : Rat) (method date notes created_at : String) (h : 0 < a) :
    add_expense db owner category a method date notes created_at =
      (true,
       ⟨db.rows ++ [⟨db.next_id, owner, category, a, method, date, notes, created_at⟩],
        db.next_id + 1⟩) := by
  rw [add_expense, if_neg (not_le.mpr h)]

theorem add_expense_success_flag_witness :
    add_expense ⟨[], 7⟩ "a@x.com" "Food" (mkRat 25 2) "Card" "2024-01-05" "lunch" "ts" =
      (true, ⟨[⟨7, "a@x.com", "Food", mkRat 25 2, "Card", "2024-01-05", "lunch", "ts"⟩], 8⟩) :=
  add_expense_success_flag ⟨[], 7⟩ "a@x.com" "Food" (mkRat 25 2) "Card" "2024-01-05"
    "lunch" "ts" (by decide)

/-- C8 counterexample: `add_expense` does not return the newly assigned
record id. Two creates that assign different ids (1 and 7) return the very
same first component `true`; the return value is a success flag carrying no
id at all. -/
theorem add_expense_flag_not_id_cex :
    (add_expense ⟨[], 1⟩ "a@x.com" "Food" (mkRat 25 2) "Card" "2024-01-05" "lunch" "ts").1 =
      (add_expense ⟨[], 7⟩ "a@x.com" "Food" (mkRat 25 2) "Card" "2024-01-05" "lunch" "ts").1 ∧
    ((add_expense ⟨[], 1⟩ "a@x.com" "Food" (mkRat 25 2) "Card" "2024-01-05" "lunch" "ts").2.rows.map
        ExpenseRecord.id = [1]) ∧
    ((add_expense ⟨[], 7⟩ "a@x.com" "Food" (mkRat 25 2) "Card" "2024-01-05" "lunch" "ts").2.rows.map
        ExpenseRecord.id = [7]) := by
  decide


/-- C9 (amended): the redirect-carried query parameters are cleared only on
a successful exchange-and-verification; when the attempt fails they are
left in place, so a page refresh re-triggers the exchange with the
already-consumed code. -/
theorem callback_params_cleared_only_on_success (clientId : String)
    (fetchToken : String → Except Unit Token) (s : AppState) (code : String)
    (hcode : lookupParam s.query_params "code" = some code) :
    ((callback clientId fetchToken s).1 = true →
      (callback clientId fetchToken s).2.query_params = []) ∧
    ((callback clientId fetchToken s).1 = false →
      (callback clientId fetchToken s).2.query_params = s.query_params) := by
  unfold callback
  rw [hcode]
  dsimp only
  cases h1 : fetchToken code with
  | error e => exact ⟨(fun h => nomatch h), (fun _ => rfl)⟩
  | ok tok =>
    dsimp only
    cases h2 : verify_oauth2_token tok clientId with
    | error e => exact ⟨(fun h => nomatch h), (fun _ => rfl)⟩
    | ok idinfo => exact ⟨(fun _ => rfl), (fun h => nomatch h)⟩

theorem callback_params_cleared_only_on_success_witness :
    ((callback "cid" (fun _ => (Except.error () : Except Unit Token))
        ⟨none, none, none, [("code", "c")]⟩).1 = true →
      (callback "cid" (fun _ => (Except.error () : Except Unit Token))
        ⟨none, none, none, [("code", "c")]⟩).2.query_params = []) ∧
    ((callback "cid" (fun _ => (Except.error () : Except Unit Token))
        ⟨none, none, none, [("code", "c")]⟩).1 = false →
      (callback "cid" (fun _ => (Except.error () : Except Unit Token))
        ⟨none, none, none, [("code", "c")]⟩).2.query_params = [("code", "c")]) :=
  callback_params_cleared_only_on_success "cid"
    (fun _ => (Except.error () : Except Unit Token))
    ⟨none, none, none, [("code", "c")]⟩ "c" rfl

/-- C9 counterexample: a request carrying a dead authorization code whose
exchange fails. `callback` returns `False` and the `code` query parameter
is still present afterwards — it is not cleared on the failure path, so a
refresh re-triggers the exchange with the consumed code. -/
theorem callback_failure_keeps_params_cex :
    (callback "cid" (fun _ => (Except.error () : Except Unit Token))
        ⟨none, none, none, [("code", "deadcode")]⟩).1 = false ∧
    (callback "cid" (fun _ => (Except.error () : Except Unit Token))
        ⟨none, none, none, [("code", "deadcode")]⟩).2.query_params =
      [("code", "deadcode")] :=
  ⟨rfl, rfl⟩

theorem verify_ok_inv (tok : Token) (aud : String) (idinfo : IdInfo)
    (h : verify_oauth2_token tok aud = Except.ok idinfo) :
    tok.sigValid = true ∧ tok.expired = false ∧ tok.aud = aud ∧
      idinfo = tok.payload := by
  unfold verify_oauth2_token at h
  by_cases hc : (tok.sigValid && !tok.expired && tok.aud == aud) = true
  · rw [if_pos hc] at h
    simp only [Bool.and_eq_true, Bool.not_eq_true', beq_iff_eq] at hc
    injection h with h
    exact ⟨hc.1.1, hc.1.2, hc.2, h.symm⟩
  · rw [if_neg hc] at h
    cases h

theorem callback_credentials_of_ok (clientId : String)
    (fetchToken : String → Except Unit Token) (s : AppState) (idinfo : IdInfo)
    (h0 : s.credentials = none)
    (h : (callback clientId fetchToken s).2.credentials = some idinfo) :
    ∃ tok code, lookupParam s.query_params "code" = some code ∧
      fetchToken code = Except.ok tok ∧
      verify_oauth2_token tok clientId = Except.ok idinfo := by
  unfold callback at h
  cases hcode : lookupParam s.query_params "code" with
  | none =>
    rw [hcode] at h
    dsimp only at h
    rw [h0] at h
    exact Option.noConfusion h
  | some code =>
    rw [hcode] at h
    dsimp only at h
    cases h1 : fetchToken code with
    | error e =>
      rw [h1] at h
      dsimp only at h
      rw [h0] at h
      exact Option.noConfusion h
    | ok tok =>
      rw [h1] at h
      dsimp only at h
      cases h2 : verify_oauth2_token tok clientId with
      | error e =>
        rw [h2] at h
        dsimp only at h
        rw [h0] at h
        exact Option.noConfusion h
      | ok idinfo2 =>
        rw [h2] at h
        dsimp only at h
        injection h with h
        exact ⟨tok, code, rfl, h1, h ▸ h2⟩

/-- C10: verified-audience acceptance. Starting anonymous, the session ends
up authenticated only when some token — taken either from the durable
cookie or from exchanging the redirect-carried code — passes
`verify_oauth2_token` against the configured client id; in particular that
token's audience equals the client id and its signature and expiry checks
passed. Both acceptance paths go through the same verification with the
same audience, so a token whose audience differs from the client id is
accepted on neither path, whatever its signature and expiry. -/
theorem session_restore_verified_audience (clientId : String)
    (fetchToken : String → Except Unit Token) (s : AppState) (idinfo : IdInfo)
    (hanon : s.credentials = none)
    (hauth : (session_restore clientId fetchToken s).credentials = some idinfo) :
    ∃ tok : Token,
      verify_oauth2_token tok clientId = Except.ok idinfo ∧
      tok.aud = clientId ∧ tok.sigValid = true ∧ tok.expired = false ∧
      idinfo = tok.payload ∧
      (s.cookie_g_id_token = some tok ∨
        ∃ code, lookupParam s.query_params "code" = some code ∧
          fetchToken code = Except.ok tok) := by
  unfold session_restore at hauth
  rw [hanon] at hauth
  dsimp only [Option.isSome_none] at hauth
  rw [if_neg (by exact Bool.false_ne_true)] at hauth
  cases hck : s.cookie_g_id_token with
  | some tok =>
    rw [hck] at hauth
    dsimp only at hauth
    cases hv : verify_oauth2_token tok clientId with
    | ok idinfo2 =>
      rw [hv] at hauth
      dsimp only [Option.isSome_some] at hauth
      rw [if_pos rfl] at hauth
      injection hauth with hauth
      obtain ⟨hsig, hexp, haud, hpay⟩ := verify_ok_inv tok clientId idinfo2 hv
      exact ⟨tok, hauth ▸ hv, haud, hsig, hexp, hauth ▸ hpay, Or.inl rfl⟩
    | error e =>
      rw [hv] at hauth
      dsimp only [Option.isSome_none] at hauth
      rw [if_neg (by exact Bool.false_ne_true)] at hauth
      obtain ⟨tok2, code, hcode, hfetch, hver⟩ :=
        callback_credentials_of_ok clientId fetchToken
          ⟨none, s.id_token, none, s.query_params⟩ idinfo rfl hauth
      obtain ⟨hsig, hexp, haud, hpay⟩ := verify_ok_inv tok2 clientId idinfo hver
      exact ⟨tok2, hver, haud, hsig, hexp, hpay, Or.inr ⟨code, hcode, hfetch⟩⟩
  | none =>
    rw [hck] at hauth
    dsimp only at hauth
    rw [hanon] at hauth
    dsimp only [Option.isSome_none] at hauth
    rw [if_neg (by exact Bool.false_ne_true)] at hauth
    obtain ⟨tok2, code, hcode, hfetch, hver⟩ :=
      callback_credentials_of_ok clientId fetchToken s idinfo hanon hauth
    obtain ⟨hsig, hexp, haud, hpay⟩ := verify_ok_inv tok2 clientId idinfo hver
    exact ⟨tok2, hver, haud, hsig, hexp, hpay, Or.inr ⟨code, hcode, hfetch⟩⟩

/-- A token that verifies against client id "cid". -/
def goodTok : Token := ⟨true, false, "cid", ⟨"a@x.com", "A", "pic"⟩⟩

theorem session_restore_verified_audience_witness :
    ∃ tok : Token,
      verify_oauth2_token tok "cid" = Except.ok ⟨"a@x.com", "A", "pic"⟩ ∧
      tok.aud = "cid" ∧ tok.sigValid = true ∧ tok.expired = false ∧
      (⟨"a@x.com", "A", "pic"⟩ : IdInfo) = tok.payload ∧
      ((⟨none, none, some goodTok, []⟩ : AppState).cookie_g_id_token = some tok ∨
        ∃ code, lookupParam (⟨none, none, some goodTok, []⟩ : AppState).query_params
            "code" = some code ∧
          (fun _ => (Except.error () : Except Unit Token)) code = Except.ok tok) :=
  session_restore_verified_audience "cid" (fun _ => (Except.error () : Except Unit Token))
    ⟨none, none, some goodTok, []⟩ ⟨"a@x.com", "A", "pic"⟩ rfl rfl
